import Mathlib

/-!
Verification of `src/functions/agasobanuye.js` (Rwanda-Stuffs).

The JavaScript source is shallowly embedded: strings are Lean `String`s
(manipulated through their `List Char` data), JS dynamic values are the
inductive `Value`, JS objects are association lists with
insert-or-overwrite update, machine numbers that matter are `Nat`/`Int`,
and code paths that can raise a JS exception are modelled with `Except`.
Environment-dependent operations that the repository does not implement
(`Date` parsing, `toLocaleDateString`, the current clock) are passed as
explicit parameters; they never throw in JS, so they are total functions.
-/

namespace Agasobanuye

/-! ## JS character and string primitives -/

/-- Character class of the JS regex `\s` (the whitespace characters JS
`trim`, `\s` and `parseInt` skip): ASCII whitespace, NBSP, BOM and the
Unicode space separators. -/
def jsIsSpace (c : Char) : Bool :=
  c = ' ' || c = '\t' || c = '\n' || c = '\r' ||
  c.val = 11 || c.val = 12 || c.val = 0xa0 || c.val = 0x1680 ||
  (0x2000 ≤ c.val && c.val ≤ 0x200a) ||
  c.val = 0x2028 || c.val = 0x2029 || c.val = 0x202f ||
  c.val = 0x205f || c.val = 0x3000 || c.val = 0xfeff

/-- Character class of the JS regex `\w`: ASCII letters, digits, underscore. -/
def isWordCharJS (c : Char) : Bool :=
  ('a' ≤ c && c ≤ 'z') || ('A' ≤ c && c ≤ 'Z') || ('0' ≤ c && c ≤ '9') || c = '_'

/-- Character class of the JS regex `\d`. -/
def isDigitJS (c : Char) : Bool := '0' ≤ c && c ≤ '9'

/-- ASCII lowercasing of one character, as applied by JS `toLowerCase` to
ASCII input.  (JS full-Unicode lowercasing can differ on non-ASCII
characters; those are removed by the slug pipeline's `[^\w\s-]` filter
either way, so the difference is invisible to the properties proved here.) -/
def jsToLowerChar (c : Char) : Char :=
  if 'A' ≤ c && c ≤ 'Z' then Char.ofNat (c.toNat + 32) else c

/-- JS `String.prototype.trim` on a character list: strip `\s` characters
from both ends. -/
def jsTrimList (l : List Char) : List Char :=
  ((l.dropWhile jsIsSpace).reverse.dropWhile jsIsSpace).reverse

/-- JS `String.prototype.trim`. -/
def jsTrim (s : String) : String := ⟨jsTrimList s.data⟩

/-- Numeric value of a non-empty all-digit capture, as `parseInt` reads it. -/
def digitsVal (l : List Char) : Nat :=
  l.foldl (fun acc c => 10 * acc + (c.toNat - '0'.toNat)) 0

/-- JS `String.prototype.split` with a one-character separator, on the
character list (keeps empty pieces, like JS `split`). -/
def splitOnChar (sep : Char) : List Char → List (List Char)
  | [] => [[]]
  | c :: rest =>
    if c = sep then [] :: splitOnChar sep rest
    else
      match splitOnChar sep rest with
      | t :: ts => (c :: t) :: ts
      | [] => [[c]]

/-- JS `String.prototype.split` with a one-character separator. -/
def splitStr (s : String) (sep : Char) : List String :=
  (splitOnChar sep s.data).map (fun l => ⟨l⟩)

/-- JS `String.prototype.startsWith`. -/
def jsStartsWith (s pre : String) : Bool := pre.data.isPrefixOf s.data

/-- JS `String.prototype.endsWith`. -/
def jsEndsWith (s suf : String) : Bool := suf.data.isSuffixOf s.data

/-- The global dash-to-space replacement of source line 164:
`title.replace` with the global `-` regex and `' '`. -/
def dashesToSpaces (s : String) : String :=
  ⟨s.data.map (fun c => if c = '-' then ' ' else c)⟩

/-! ## `generateSlug` (source lines 444–451)

```js
function generateSlug(text) {
  return text
    .toLowerCase()
    .trim()
    .replace(/[^\w\s-]/g, '')
    .replace(/[\s_-]+/g, '-')
    .replace(/^-+|-+$/g, '');
}
```
-/

/-- Characters kept by `.replace(/[^\w\s-]/g, '')`. -/
def slugKeep (c : Char) : Bool := isWordCharJS c || jsIsSpace c || c = '-'

/-- Characters collapsed by `.replace(/[\s_-]+/g, '-')`. -/
def slugCollapse (c : Char) : Bool := jsIsSpace c || c = '_' || c = '-'

/-- Scanner for `.replace(/[\s_-]+/g, '-')`: every maximal run of
whitespace, underscores and hyphens becomes a single hyphen, emitted at
the start of the run; `inRun` records whether the previous character was
part of such a run. -/
def collapseRunsAux : Bool → List Char → List Char
  | _, [] => []
  | inRun, c :: rest =>
    if slugCollapse c then
      if inRun then collapseRunsAux true rest
      else '-' :: collapseRunsAux true rest
    else c :: collapseRunsAux false rest

/-- Embedding of the replace-with-hyphen pass on a whole string. -/
def collapseRuns (l : List Char) : List Char := collapseRunsAux false l

/-- Embedding of the edge-hyphen removal pass: remove the leading and
the trailing run of hyphens. -/
def stripEdgeHyphens (l : List Char) : List Char :=
  ((l.dropWhile (· = '-')).reverse.dropWhile (· = '-')).reverse

/-- Embedding of `generateSlug` (source lines 444–451). -/
def generateSlug (text : String) : String :=
  ⟨stripEdgeHyphens (collapseRuns (jsTrimList (text.data.map jsToLowerChar) |>.filter slugKeep))⟩

/-- The character-set property the spec claims of slugs: lower-case
alphanumerics and hyphens only, no leading or trailing hyphen. -/
def slugCharOk (c : Char) : Bool := ('a' ≤ c && c ≤ 'z') || ('0' ≤ c && c ≤ '9') || c = '-'

/-- The slug invariant of the spec, as a predicate on strings. -/
def isGoodSlug (s : String) : Prop :=
  (∀ c ∈ s.data, slugCharOk c) ∧
  (∀ c, s.data.head? = some c → c ≠ '-') ∧
  (∀ c, s.data.getLast? = some c → c ≠ '-')

instance : DecidablePred isGoodSlug := fun s => by
  unfold isGoodSlug; infer_instance

/-! ## Duration grammar (source lines 300–339 and 366–405)

Both formatters test the same five regexes in the same order:
`^(\d+):(\d+):(\d+)$`, `^(\d+):(\d+)$`, `/(\d+)\s*(?:min|minutes?)/i`,
`/(\d+)\s*(?:hr|hours?)/i`, `/(\d+)h\s*(\d+)m/i`.
-/

/-- Anchored match of `^(\d+):(\d+):(\d+)$`: the string is exactly three
non-empty digit groups separated by colons.  (Splitting on `:` is
equivalent to the anchored regex, since digit groups contain no colon.) -/
def hmsMatch (s : String) : Option (String × String × String) :=
  match splitStr s ':' with
  | [h, m, sec] =>
    if h ≠ "" && m ≠ "" && sec ≠ "" &&
       h.data.all isDigitJS && m.data.all isDigitJS && sec.data.all isDigitJS
    then some (h, m, sec) else none
  | _ => none

/-- Anchored match of `^(\d+):(\d+)$`. -/
def msMatch (s : String) : Option (String × String) :=
  match splitStr s ':' with
  | [m, sec] =>
    if m ≠ "" && sec ≠ "" && m.data.all isDigitJS && sec.data.all isDigitJS
    then some (m, sec) else none
  | _ => none

/-- One attempt of the unanchored regex `(\d+)\s*(?:u₁|u₂|…)/i` at the
current position: a maximal digit run, optional whitespace, then one of the
unit literals (case-insensitively).  Greedy `\d+`/`\s*` cannot backtrack
usefully here (a shorter digit or space run leaves the wrong next
character), so the match is deterministic. -/
def unitScanHere (alts : List (List Char)) (cs : List Char) : Option (List Char) :=
  let ds := cs.takeWhile isDigitJS
  if ds = [] then none
  else
    let after := ((cs.drop ds.length).dropWhile jsIsSpace).map jsToLowerChar
    if alts.any (fun a => a.isPrefixOf after) then some ds else none

/-- Leftmost match of `(\d+)\s*(?:u₁|u₂|…)/i`, scanning start positions
left to right as the JS regex engine does; returns the `(\d+)` capture. -/
def unitScan (alts : List (List Char)) : List Char → Option (List Char)
  | [] => none
  | c :: rest =>
    match unitScanHere alts (c :: rest) with
    | some ds => some ds
    | none => unitScan alts rest

/-- Alternatives of `(?:min|minutes?)`: a prefix `min` matches all three. -/
def minuteAlts : List (List Char) := [['m', 'i', 'n']]

/-- Alternatives of `(?:hr|hours?)`: `hr`, and `hour` covering `hours?`. -/
def hourAlts : List (List Char) := [['h', 'r'], ['h', 'o', 'u', 'r']]

/-- One attempt of `(\d+)h\s*(\d+)m/i` at the current position. -/
def hmScanHere (cs : List Char) : Option (List Char × List Char) :=
  let ds1 := cs.takeWhile isDigitJS
  if ds1 = [] then none
  else
    match cs.drop ds1.length with
    | c :: rest =>
      if jsToLowerChar c = 'h' then
        let rest2 := rest.dropWhile jsIsSpace
        let ds2 := rest2.takeWhile isDigitJS
        if ds2 = [] then none
        else
          match rest2.drop ds2.length with
          | c2 :: _ => if jsToLowerChar c2 = 'm' then some (ds1, ds2) else none
          | [] => none
      else none
    | [] => none

/-- Leftmost match of `(\d+)h\s*(\d+)m/i`; returns the two captures. -/
def hmScan : List Char → Option (List Char × List Char)
  | [] => none
  | c :: rest =>
    match hmScanHere (c :: rest) with
    | some r => some r
    | none => hmScan rest

/-- Embedding of `convertDurationToISO` (source lines 300–339).  The `H:MM:SS`, `MM:SS`
and `NhMMm` branches interpolate the captured digit strings verbatim; the
`minutes`/`hours` branches interpolate `parseInt` of the capture. -/
def convertDurationToISO (duration : String) : String :=
  if duration = "" || duration = "Not specified" then "PT0M"
  else
    match hmsMatch duration with
    | some (h, m, s) => "PT" ++ h ++ "H" ++ m ++ "M" ++ s ++ "S"
    | none =>
    match msMatch duration with
    | some (m, s) => "PT" ++ m ++ "M" ++ s ++ "S"
    | none =>
    match unitScan minuteAlts duration.data with
    | some ds => "PT" ++ toString (digitsVal ds) ++ "M"
    | none =>
    match unitScan hourAlts duration.data with
    | some ds => "PT" ++ toString (digitsVal ds) ++ "H"
    | none =>
    match hmScan duration.data with
    | some (h, m) => "PT" ++ ⟨h⟩ ++ "H" ++ ⟨m⟩ ++ "M"
    | none => "PT0M"

/-- Embedding of `formatDurationForDisplay` (source lines 366–405).  Note the final
fallthrough returns the input string unchanged, not a zero marker. -/
def formatDurationForDisplay (duration : String) : String :=
  if duration = "" || duration = "Not specified" then ""
  else
    match hmsMatch duration with
    | some (h, m, _) => h ++ "h " ++ m ++ "m"
    | none =>
    match msMatch duration with
    | some (m, _) => m ++ "m"
    | none =>
    match unitScan minuteAlts duration.data with
    | some ds => toString (digitsVal ds) ++ "m"
    | none =>
    match unitScan hourAlts duration.data with
    | some ds => toString (digitsVal ds) ++ "h"
    | none =>
    match hmScan duration.data with
    | some (h, m) => ⟨h⟩ ++ "h " ++ ⟨m⟩ ++ "m"
    | none => duration

/-! ## `formatShortDate` (source lines 346–364)

The source computes `Math.abs(now - date)` on millisecond timestamps and
buckets `Math.floor(diffTime / 86400000)`; dates are embedded as integer
millisecond timestamps. -/

/-- Embedding of `formatShortDate` (source lines 346–364). -/
def formatShortDate (nowMs dateMs : Int) : String :=
  let diffTime := (nowMs - dateMs).natAbs
  let diffDays := diffTime / 86400000
  if diffDays = 0 then "Today"
  else if diffDays = 1 then "Yesterday"
  else if diffDays < 7 then toString diffDays ++ "d ago"
  else if diffDays < 30 then toString (diffDays / 7) ++ "w ago"
  else if diffDays < 365 then toString (diffDays / 30) ++ "mo ago"
  else toString (diffDays / 365) ++ "y ago"

/-- The bucket table exactly as claim C8 words it, keyed on the number of
whole days in the past. -/
def claimShortDateBucket (n : Nat) : String :=
  if n = 0 then "Today"
  else if n = 1 then "Yesterday"
  else if 2 ≤ n ∧ n ≤ 6 then toString n ++ "d ago"
  else if 7 ≤ n ∧ n ≤ 29 then toString (n / 7) ++ "w ago"
  else if 30 ≤ n ∧ n ≤ 364 then toString (n / 30) ++ "mo ago"
  else toString (n / 365) ++ "y ago"

/-! ## JS values and objects

`parseYAMLFrontmatter` stores strings, integers, booleans and arrays in a
plain JS object; `parseTranslatedVideo` builds an object literal and then
spreads the front-matter over it.  Objects are embedded as association
lists with JS update semantics: assigning an existing key overwrites in
place, a new key is appended. -/

inductive Value where
  | vstr (s : String)
  | vnum (n : Int)
  | vbool (b : Bool)
  | vlist (l : List Value)
  | vnone
deriving Repr

mutual

/-- Decidable equality for `Value` (the nested list forces a manual
mutual definition). -/
def Value.decEq : (a b : Value) → Decidable (a = b)
  | .vstr a, .vstr b =>
    match (inferInstance : DecidableEq String) a b with
    | isTrue h => isTrue (by rw [h])
    | isFalse h => isFalse (by intro hc; cases hc; exact h rfl)
  | .vnum a, .vnum b =>
    match (inferInstance : DecidableEq Int) a b with
    | isTrue h => isTrue (by rw [h])
    | isFalse h => isFalse (by intro hc; cases hc; exact h rfl)
  | .vbool a, .vbool b =>
    match (inferInstance : DecidableEq Bool) a b with
    | isTrue h => isTrue (by rw [h])
    | isFalse h => isFalse (by intro hc; cases hc; exact h rfl)
  | .vlist a, .vlist b =>
    match Value.listDecEq a b with
    | isTrue h => isTrue (by rw [h])
    | isFalse h => isFalse (by intro hc; cases hc; exact h rfl)
  | .vnone, .vnone => isTrue rfl
  | .vstr _, .vnum _ => isFalse (by intro h; cases h)
  | .vstr _, .vbool _ => isFalse (by intro h; cases h)
  | .vstr _, .vlist _ => isFalse (by intro h; cases h)
  | .vstr _, .vnone => isFalse (by intro h; cases h)
  | .vnum _, .vstr _ => isFalse (by intro h; cases h)
  | .vnum _, .vbool _ => isFalse (by intro h; cases h)
  | .vnum _, .vlist _ => isFalse (by intro h; cases h)
  | .vnum _, .vnone => isFalse (by intro h; cases h)
  | .vbool _, .vstr _ => isFalse (by intro h; cases h)
  | .vbool _, .vnum _ => isFalse (by intro h; cases h)
  | .vbool _, .vlist _ => isFalse (by intro h; cases h)
  | .vbool _, .vnone => isFalse (by intro h; cases h)
  | .vlist _, .vstr _ => isFalse (by intro h; cases h)
  | .vlist _, .vnum _ => isFalse (by intro h; cases h)
  | .vlist _, .vbool _ => isFalse (by intro h; cases h)
  | .vlist _, .vnone => isFalse (by intro h; cases h)
  | .vnone, .vstr _ => isFalse (by intro h; cases h)
  | .vnone, .vnum _ => isFalse (by intro h; cases h)
  | .vnone, .vbool _ => isFalse (by intro h; cases h)
  | .vnone, .vlist _ => isFalse (by intro h; cases h)

/-- Decidable equality for lists of `Value`. -/
def Value.listDecEq : (a b : List Value) → Decidable (a = b)
  | [], [] => isTrue rfl
  | [], _ :: _ => isFalse (by intro h; cases h)
  | _ :: _, [] => isFalse (by intro h; cases h)
  | a :: as, b :: bs =>
    match Value.decEq a b, Value.listDecEq as bs with
    | isTrue h1, isTrue h2 => isTrue (by rw [h1, h2])
    | isFalse h1, _ => isFalse (by intro hc; cases hc; exact h1 rfl)
    | _, isFalse h2 => isFalse (by intro hc; cases hc; exact h2 rfl)

end

instance : DecidableEq Value := Value.decEq

/-- JS truthiness of an embedded value (arrays are always truthy). -/
def truthy : Value → Bool
  | .vstr s => s ≠ ""
  | .vnum n => n ≠ 0
  | .vbool b => b
  | .vlist _ => true
  | .vnone => false

/-- The JS `a || b` operator on embedded values. -/
def jsOr (a b : Value) : Value := if truthy a then a else b

/-- A JS object: key/value pairs in insertion order. -/
abbrev Obj := List (String × Value)

/-- Property read `o[k]`; `undefined` when absent. -/
def objGet (o : Obj) (k : String) : Value :=
  ((o.find? (fun p => p.1 == k)).map (·.2)).getD .vnone

/-- Does the object have key `k`. -/
def objHasKey (o : Obj) (k : String) : Bool := o.any (fun p => p.1 == k)

/-- Property write `o[k] = v`: overwrite in place, or append a new key. -/
def objSet (o : Obj) (k : String) (v : Value) : Obj :=
  if objHasKey o k then o.map (fun p => if p.1 == k then (k, v) else p)
  else o ++ [(k, v)]

/-- The JS spread `{ ...o, ...src }` tail: assign every key of `src` onto
`o` in order. -/
def objSpread (o : Obj) (src : Obj) : Obj :=
  src.foldl (fun acc p => objSet acc p.1 p.2) o

/-! ## `parseYAMLFrontmatter` (source lines 212–298) -/

/-- Is the character one of the quote characters of
`/^["'](.*)["']$/`. -/
def isQuoteChar (c : Char) : Bool := c = '"' || c = '\''

/-- Embedding of `value.replace(/^["'](.*)["']$/, '$1')`: if the string is at least two
characters long and both ends are (not necessarily matching) quotes, strip
them; otherwise return it unchanged. -/
def stripQuotePair (s : String) : String :=
  match s.data.head?, s.data.getLast? with
  | some c1, some c2 =>
    if 2 ≤ s.data.length && isQuoteChar c1 && isQuoteChar c2 then
      ⟨(s.data.drop 1).dropLast⟩
    else s
  | _, _ => s

/-- Match of `^(\w+):\s*(.*)$` against one line: a maximal non-empty run of
word characters, a colon, then the rest of the line with its leading
whitespace dropped. -/
def matchKeyValue (line : String) : Option (String × String) :=
  let cs := line.data
  let key := cs.takeWhile isWordCharJS
  if key = [] then none
  else
    match cs.drop key.length with
    | ':' :: rest => some (⟨key⟩, ⟨rest.dropWhile jsIsSpace⟩)
    | _ => none

/-- Index of the first occurrence of `pat` inside `l`. -/
def findSubIdx (l pat : List Char) : Option Nat :=
  match l with
  | [] => if pat = [] then some 0 else none
  | _ :: rest => if pat.isPrefixOf l then some 0 else (findSubIdx rest pat).map (· + 1)

/-- The front-matter block matched by `content.match` of the regex
`^---` newline, lazy `[\s\S]*?` body, newline `---`: the content must
start with `---` and a newline, and the (lazy, hence shortest) body runs
up to the next newline followed by `---`. -/
def extractFrontmatter (content : String) : Option String :=
  if jsStartsWith content "---\n" then
    let rest := content.data.drop 4
    (findSubIdx rest ['\n', '-', '-', '-']).map (fun i => ⟨rest.take i⟩)
  else none

/-- The keys the parser coerces with `parseInt(value) || 0`
(source lines 265–268). -/
def numericKeys : List String :=
  ["releaseYear", "views", "likes", "imdbRating", "imdbVotes",
   "rottenTomatoesScore", "metacriticScore", "ageRestriction",
   "seasonNumber", "totalSeasons", "episodeNumber", "episodeCount"]

/-- Is the character a hexadecimal digit (for `parseInt` auto-hex). -/
def isHexDigitJS (c : Char) : Bool :=
  isDigitJS c || ('a' ≤ c && c ≤ 'f') || ('A' ≤ c && c ≤ 'F')

/-- Numeric value of one hexadecimal digit. -/
def hexDigitVal (c : Char) : Nat :=
  if isDigitJS c then c.toNat - '0'.toNat
  else if 'a' ≤ c && c ≤ 'f' then c.toNat - 'a'.toNat + 10
  else c.toNat - 'A'.toNat + 10

/-- JS `parseInt(s) || 0`: skip leading whitespace, optional sign, then a
leading run of decimal digits (or `0x…` hexadecimal); `NaN` (no digits)
collapses to `0` through `|| 0`, as does an actual zero. -/
def jsParseIntOr0 (s : String) : Int :=
  let cs := s.data.dropWhile jsIsSpace
  let signAndRest : Int × List Char :=
    match cs with
    | '-' :: rest => (-1, rest)
    | '+' :: rest => (1, rest)
    | _ => (1, cs)
  let sign := signAndRest.1
  let body := signAndRest.2
  match body with
  | '0' :: x :: rest =>
    if x = 'x' || x = 'X' then
      let hs := rest.takeWhile isHexDigitJS
      if hs = [] then 0
      else sign * (hs.foldl (fun acc c => 16 * acc + hexDigitVal c) 0 : Nat)
    else
      sign * (digitsVal (body.takeWhile isDigitJS) : Nat)
  | _ =>
    let ds := body.takeWhile isDigitJS
    if ds = [] then 0 else sign * (digitsVal ds : Nat)

/-- Modelled subset of `JSON.parse` for the bracket-array branch
(source line 255): flat arrays of string literals (with the common
escapes), integers, `true` and `false`.  Any other JSON document —
nested arrays, objects, fractions, exponents, `null`, exotic escapes —
is treated as a parse failure here and therefore takes the manual
comma-split fallback below.  No claim in this development depends on the
exact success set of `JSON.parse`; the fallback is embedded exactly. -/
def jsonStringLit : List Char → Option (List Char × List Char)
  | [] => none
  | c :: rest =>
    if c = '"' then none
    else if c = '\\' then
      match rest with
      | e :: rest2 =>
        let esc : Option Char :=
          if e = '"' then some '"'
          else if e = '\\' then some '\\'
          else if e = '/' then some '/'
          else if e = 'n' then some '\n'
          else if e = 't' then some '\t'
          else if e = 'r' then some '\r'
          else none
        match esc with
        | some ec => (jsonStringLit rest2).map (fun p => (ec :: p.1, p.2))
        | none => none
      | [] => none
    else (jsonStringLit rest).map (fun p => (c :: p.1, p.2))

/-- One scalar JSON value: string, integer, or boolean. -/
def jsonScalar (cs : List Char) : Option (Value × List Char) :=
  match cs with
  | '"' :: rest =>
    match jsonStringLit rest with
    | some (chars, rest2) =>
      match rest2 with
      | '"' :: rest3 => some (.vstr ⟨chars⟩, rest3)
      | _ => none
    | none => none
  | 't' :: 'r' :: 'u' :: 'e' :: rest => some (.vbool true, rest)
  | 'f' :: 'a' :: 'l' :: 's' :: 'e' :: rest => some (.vbool false, rest)
  | '-' :: rest =>
    let ds := rest.takeWhile isDigitJS
    if ds = [] then none
    else some (.vnum (-(digitsVal ds : Int)), rest.drop ds.length)
  | _ =>
    let ds := cs.takeWhile isDigitJS
    if ds = [] then none
    else some (.vnum (digitsVal ds : Int), cs.drop ds.length)

/-- Comma-separated JSON scalars followed by the closing bracket. -/
def jsonElems (fuel : Nat) (cs : List Char) : Option (List Value × List Char) :=
  match fuel with
  | 0 => none
  | fuel' + 1 =>
    match jsonScalar (cs.dropWhile jsIsSpace) with
    | none => none
    | some (v, rest) =>
      match rest.dropWhile jsIsSpace with
      | ',' :: rest2 => (jsonElems fuel' rest2).map (fun p => (v :: p.1, p.2))
      | ']' :: rest2 => some ([v], rest2)
      | _ => none

/-- Modelled `JSON.parse` on a whole bracketed value (see `jsonElems`). -/
def jsonParseArray (s : String) : Option (List Value) :=
  match s.data.dropWhile jsIsSpace with
  | '[' :: rest =>
    match rest.dropWhile jsIsSpace with
    | ']' :: rest2 => if rest2.dropWhile jsIsSpace = [] then some [] else none
    | _ =>
      match jsonElems (rest.length + 1) rest with
      | some (vs, rest2) => if rest2.dropWhile jsIsSpace = [] then some vs else none
      | none => none
  | _ => none

/-- The manual fallback of the bracket branch (source lines 258–261):
strip the brackets, split on commas, trim and quote-strip each piece, keep
the truthy (non-empty) ones. -/
def bracketFallback (value : String) : List Value :=
  let inner : String := ⟨(value.data.drop 1).dropLast⟩
  (((splitStr inner ',').map (fun v => stripQuotePair (jsTrim v))).filter
    (fun v => v ≠ "")).map .vstr

/-- Processing of one line of the front-matter body (the loop body of
source lines 223–291).  `lines` is the full line array: the dash-list and
pipe branches look it up again with `lines.indexOf(line)`, i.e. by the
position of the first occurrence of the line's text. -/
def processLine (lines : List String) (data : Obj) (line : String) : Obj :=
  if jsTrim line = "" then data
  else
    match matchKeyValue line with
    | none => data
    | some (key, rawVal) =>
      let value := jsTrim (stripQuotePair rawVal)
      if value = "" && lines.contains line then
        let nextLineIndex := lines.indexOf line + 1
        let v : Value :=
          if nextLineIndex < lines.length &&
             jsStartsWith (jsTrim (lines.getD nextLineIndex "")) "-" then
            let items := ((lines.drop nextLineIndex).takeWhile
                (fun l => jsStartsWith (jsTrim l) "-")).map
              (fun l => stripQuotePair (jsTrim ⟨((jsTrim l).data.drop 1)⟩))
            .vlist (items.map .vstr)
          else .vstr ""
        objSet data key v
      else if jsStartsWith value "[" && jsEndsWith value "]" then
        let v : Value :=
          match jsonParseArray value with
          | some l => .vlist l
          | none => .vlist (bracketFallback value)
        objSet data key v
      else if numericKeys.contains key then
        objSet data key (.vnum (jsParseIntOr0 value))
      else if value = "true" || value = "false" then
        objSet data key (.vbool (value = "true"))
      else if value = "|" then
        let nextLineIndex := lines.indexOf line + 1
        let contLines := (lines.drop nextLineIndex).takeWhile
          (fun l => jsStartsWith l "  " || jsStartsWith l "\t")
        let joined := jsTrim
          ⟨contLines.foldl (fun acc l => acc ++ (jsTrim l).data ++ [' ']) []⟩
        objSet data key (.vstr joined)
      else objSet data key (.vstr value)

/-- The parser's main loop over the body lines (`lines` stays the full
array for the `indexOf` lookups; `toGo` is what remains to process). -/
def parseLines (lines toGo : List String) (data : Obj) : Obj :=
  match toGo with
  | [] => data
  | l :: rest => parseLines lines rest (processLine lines data l)

/-- Embedding of `parseYAMLFrontmatter` (source lines 212–298). -/
def parseYAMLFrontmatter (content : String) : Obj :=
  match extractFrontmatter content with
  | none => []
  | some fm =>
    let lines := splitStr fm '\n'
    parseLines lines lines []

/-- The parser's loop with an explicit exception point, modelling the
`try`/`catch` of source lines 215–295: `data` is declared *outside* the
`try`, lines are processed mutating `data` in place, and if processing of
line `failAt` raises, the `catch` swallows the exception and the function
returns `data` as already accumulated.  The Boolean records whether the
exception fired.  (In the code as written no loop step can actually throw
on string input; the oracle makes the claimed exception path expressible.) -/
def parseLinesExn (failAt : Nat) (lines toGo : List String) (idx : Nat)
    (data : Obj) : Obj × Bool :=
  match toGo with
  | [] => (data, false)
  | l :: rest =>
    if idx = failAt then (data, true)
    else parseLinesExn failAt lines rest (idx + 1) (processLine lines data l)

/-- Run of `parseYAMLFrontmatter` under the exception oracle of `parseLinesExn`. -/
def parseYAMLFrontmatterExn (failAt : Nat) (content : String) : Obj × Bool :=
  match extractFrontmatter content with
  | none => ([], false)
  | some fm =>
    let lines := splitStr fm '\n'
    parseLinesExn failAt lines lines 0 []

/-! ## `parseTranslatedVideo` (source lines 139–210)

The filename is matched against the three-bracket pattern, the file body
is fetched (embedded here as the `content` argument: claim C4 assumes the
content is available; an unavailable body returns `null` in the source),
the front-matter is parsed, and the record object is built.  JS dynamic
type errors during record construction (for example `generateSlug` on an
array) are raised as `Except.error` and the outer `catch` turns them into
`none`, exactly as the source's `try`/`catch` returns `null`. -/

/-- Match of the filename regex `^\[([^\]]+)\]\[([^\]]+)\]\[([^\]]+)\]\.md$`:
three non-empty bracket groups (no closing bracket inside), then `.md`. -/
def matchBracketName (name : String) : Option (String × String × String) :=
  match name.data with
  | '[' :: rest1 =>
    let t := rest1.takeWhile (· ≠ ']')
    if t = [] then none
    else
      match rest1.drop t.length with
      | ']' :: '[' :: rest2 =>
        let ct := rest2.takeWhile (· ≠ ']')
        if ct = [] then none
        else
          match rest2.drop ct.length with
          | ']' :: '[' :: rest3 =>
            let tr := rest3.takeWhile (· ≠ ']')
            if tr = [] then none
            else
              match rest3.drop tr.length with
              | ']' :: tail => if tail = ['.', 'm', 'd'] then some (⟨t⟩, ⟨ct⟩, ⟨tr⟩) else none
              | _ => none
          | _ => none
      | _ => none
  | _ => none

/-- Application of `generateSlug` to a dynamic value: JS calls `.toLowerCase()`
on it, which throws a `TypeError` unless the value is a string. -/
def generateSlugV : Value → Except Unit String
  | .vstr s => .ok (generateSlug s)
  | _ => .error ()

/-- Embedding of `convertDurationToISO` on a dynamic value: a falsy argument returns
`PT0M` through the `!duration` guard before any method call; a truthy
non-string throws at `duration.match`. -/
def convertDurationToISOV (v : Value) : Except Unit String :=
  if truthy v = false then .ok "PT0M"
  else
    match v with
    | .vstr s => .ok (convertDurationToISO s)
    | _ => .error ()

/-- Embedding of `formatDurationForDisplay` on a dynamic value (same throwing
behaviour; the falsy guard returns the empty string). -/
def formatDurationForDisplayV (v : Value) : Except Unit String :=
  if truthy v = false then .ok ""
  else
    match v with
    | .vstr s => .ok (formatDurationForDisplay s)
    | _ => .error ()

/-- The object literal of source lines 162–184, given the bracket
captures `t`, `ct`, `tr` and the already-computed `translatorSlug`.
`nowISO` stands for `new Date().toISOString()`. -/
def videoDataLiteral (name t ct tr downloadUrl htmlUrl nowISO translatorSlug : String)
    (fm : Obj) : Obj :=
  [("filename", .vstr name),
   ("title", jsOr (objGet fm "title") (.vstr (jsTrim (dashesToSpaces t)))),
   ("slug", jsOr (objGet fm "slug") (.vstr (generateSlug t))),
   ("contentType", jsOr (objGet fm "contentType") (.vstr (jsTrim ct))),
   ("translator", jsOr (objGet fm "translator") (.vstr (jsTrim tr))),
   ("translatorSlug", .vstr translatorSlug),
   ("downloadUrl", .vstr downloadUrl),
   ("htmlUrl", .vstr htmlUrl),
   ("duration", jsOr (objGet fm "runtime") (jsOr (objGet fm "duration") (.vstr ""))),
   ("quality", jsOr (objGet fm "quality") (jsOr (objGet fm "videoQuality") (.vstr "HD"))),
   ("uploadDate", jsOr (objGet fm "dateAdded") (jsOr (objGet fm "uploadDate") (.vstr nowISO))),
   ("poster", jsOr (objGet fm "posterUrl") (jsOr (objGet fm "thumbnailUrl") (.vstr ""))),
   ("videoUrl", jsOr (objGet fm "videoUrl") (.vstr "")),
   ("description", jsOr (objGet fm "description") (jsOr (objGet fm "shortDescription") (.vstr ""))),
   ("releaseYear", jsOr (objGet fm "releaseYear") (.vstr "")),
   ("genre", jsOr (objGet fm "genre") (.vlist [])),
   ("views", jsOr (objGet fm "views") (.vnum 0)),
   ("likes", jsOr (objGet fm "likes") (.vnum 0))]

/-- Source lines 186–189: `if (videoData.duration && !videoData.isoDuration)
videoData.isoDuration = convertDurationToISO(videoData.duration)`. -/
def ensureISODuration (vd : Obj) : Except Unit Obj :=
  if truthy (objGet vd "duration") && !truthy (objGet vd "isoDuration") then
    match convertDurationToISOV (objGet vd "duration") with
    | .ok iso => .ok (objSet vd "isoDuration" (.vstr iso))
    | .error e => .error e
  else .ok vd

/-- Source lines 191–197: `if (videoData.uploadDate)` set `formattedDate`
and `shortDate`.  `fmtDate v`/`fmtShort v` stand for
`formatDate(new Date(v))`/`formatShortDate(new Date(v))`; the `Date`
parsing is environment code and neither call throws in JS. -/
def addFormattedDate (fmtDate fmtShort : Value → String) (vd : Obj) : Obj :=
  if truthy (objGet vd "uploadDate") then
    objSet (objSet vd "formattedDate" (.vstr (fmtDate (objGet vd "uploadDate"))))
      "shortDate" (.vstr (fmtShort (objGet vd "uploadDate")))
  else vd

/-- Source lines 199–202: `if (videoData.duration && videoData.duration
!== 'Not specified') videoData.formattedDuration = ...`. -/
def addFormattedDuration (vd : Obj) : Except Unit Obj :=
  if truthy (objGet vd "duration") && !(objGet vd "duration" == .vstr "Not specified") then
    match formatDurationForDisplayV (objGet vd "duration") with
    | .ok disp => .ok (objSet vd "formattedDuration" (.vstr disp))
    | .error e => .error e
  else .ok vd

/-- The record construction of source lines 162–204, for a filename whose
bracket captures are `t`, `ct`, `tr`: the object literal (which evaluates
`generateSlug` on the translator value and may throw), the spread of all
front-matter fields over it, then the three conditional
`isoDuration`/`formattedDate`+`shortDate`/`formattedDuration`
assignments. -/
def buildVideoData (name t ct tr downloadUrl htmlUrl nowISO : String)
    (fmtDate fmtShort : Value → String) (fm : Obj) : Except Unit Obj :=
  match generateSlugV (jsOr (objGet fm "translator") (.vstr tr)) with
  | .error e => .error e
  | .ok translatorSlug =>
    let vd := objSpread
      (videoDataLiteral name t ct tr downloadUrl htmlUrl nowISO translatorSlug fm) fm
    match ensureISODuration vd with
    | .error e => .error e
    | .ok vd1 =>
      match addFormattedDuration (addFormattedDate fmtDate fmtShort vd1) with
      | .error e => .error e
      | .ok vd3 => .ok vd3

/-- Embedding of `parseTranslatedVideo` (source lines 139–210), for a file whose body
`content` is available.  A filename that misses the pattern, or any
exception while building the record, yields `none` (the source's `null`). -/
def parseTranslatedVideo (name content downloadUrl htmlUrl nowISO : String)
    (fmtDate fmtShort : Value → String) : Option Obj :=
  match matchBracketName name with
  | none => none
  | some (t, ct, tr) =>
    let fm := parseYAMLFrontmatter content
    match buildVideoData name t ct tr downloadUrl htmlUrl nowISO fmtDate fmtShort fm with
    | .ok o => some o
    | .error _ => none

/-! ## `getLatestVideosByType` (source lines 421–442)

The function reads only `contentType` and `uploadDate` of each record;
records are embedded as a structure carrying those two fields (the
comparator key `dateMs` models `new Date(b.uploadDate || 0)`, the
millisecond value of the record's upload date) plus an opaque payload
that keeps distinct records distinct. -/

structure Video where
  contentType : String
  dateMs : Int
  payload : String
deriving DecidableEq, Repr

/-- The comparator `(a, b) => new Date(b.uploadDate || 0) - new Date(a.uploadDate || 0)`
as a Boolean "a before b": descending by date.  JS `Array.prototype.sort`
is stable, as is `List.mergeSort`. -/
def byDateDesc (a b : Video) : Bool := b.dateMs ≤ a.dateMs

/-- Embedding of `getLatestVideosByType` (source lines 421–442).  `grouped` has exactly
the keys `MOVIE` and `TV-SERIES`; a record whose `contentType` is any
other string hits `grouped[video.contentType] === undefined` and is
dropped.  The result is returned as the (MOVIE, TV-SERIES) pair. -/
def getLatestVideosByType (videos : List Video) (limit : Nat) : List Video × List Video :=
  let movies := videos.filter (fun v => v.contentType == "MOVIE")
  let tv := videos.filter (fun v => v.contentType == "TV-SERIES")
  ((movies.mergeSort byDateDesc).take limit, (tv.mergeSort byDateDesc).take limit)

/-! ## Sitemap chunking (source lines 1581–1655)

The XML strings are assembled exactly as the source template literals
do; the `Response` wrapper and its headers are dropped (transport, not
logic).  `generateIndividualSitemap`'s two 404 branches are embedded as
`none`. -/

/-- One video-slug entry of the aggregate list: `{ category, slug }`. -/
structure SlugEntry where
  category : String
  slug : String
deriving DecidableEq, Repr

/-- One `<sitemap>` element of the index, for chunk number `i`. -/
def sitemapIndexEntry (baseUrl today : String) (i : Nat) : String :=
  "\n    <sitemap>\n        <loc>" ++ baseUrl ++ "/sitemap-" ++ toString i ++
  ".xml</loc>\n        <lastmod>" ++ today ++ "</lastmod>\n    </sitemap>"

/-- The numbered chunk references the index loop emits:
`i = 1 .. ceil(length / maxUrls)`. -/
def numberedSitemapEntries (baseUrl today : String) (count maxUrls : Nat) : List String :=
  ((List.range ((count + maxUrls - 1) / maxUrls)).map
    (fun i => sitemapIndexEntry baseUrl today (i + 1)))

/-- Embedding of `generateSitemapIndex` (source lines 1581–1611), as the response body
string. -/
def generateSitemapIndex (allVideoSlugs : List SlugEntry) (baseUrl today : String)
    (maxUrls : Nat) : String :=
  "<?xml version=\"1.0\" encoding=\"UTF-8\"?>\n<sitemapindex xmlns=\"http://www.sitemaps.org/schemas/sitemap/0.9\">\n    <sitemap>\n        <loc>" ++
  baseUrl ++ "/sitemap-static.xml</loc>\n        <lastmod>" ++ today ++
  "</lastmod>\n    </sitemap>\n    <sitemap>\n        <loc>" ++ baseUrl ++
  "/sitemap-categories.xml</loc>\n        <lastmod>" ++ today ++
  "</lastmod>\n    </sitemap>" ++
  String.join (numberedSitemapEntries baseUrl today allVideoSlugs.length maxUrls) ++
  "\n</sitemapindex>"

/-- One `<url>` element of a chunk sitemap. -/
def sitemapUrlEntry (baseUrl today : String) (e : SlugEntry) : String :=
  "\n    <url>\n        <loc>" ++ baseUrl ++ "/" ++ e.category ++ "/" ++ e.slug ++
  "</loc>\n        <lastmod>" ++ today ++
  "</lastmod>\n        <changefreq>monthly</changefreq>\n        <priority>0.6</priority>\n    </url>"

/-- Leftmost match of the unanchored `/sitemap-(\d+)\.xml/` in the path:
`sitemap-`, a digit run, `.xml`; returns `parseInt` of the capture. -/
def sitemapNumberScanHere (cs : List Char) : Option Nat :=
  if ['s', 'i', 't', 'e', 'm', 'a', 'p', '-'].isPrefixOf cs then
    let rest := cs.drop 8
    let ds := rest.takeWhile isDigitJS
    if ds = [] then none
    else if ['.', 'x', 'm', 'l'].isPrefixOf (rest.drop ds.length) then some (digitsVal ds)
    else none
  else none

/-- Scan the path left to right for `sitemap-(\d+)\.xml`. -/
def sitemapNumberScan : List Char → Option Nat
  | [] => none
  | c :: rest =>
    match sitemapNumberScanHere (c :: rest) with
    | some n => some n
    | none => sitemapNumberScan rest

/-- The slice of the aggregate list served by chunk `sitemapNumber`:
`allVideoSlugs.slice((n-1)*maxUrls, (n-1)*maxUrls + maxUrls)`, with
`Array.prototype.slice`'s clamping of negative and overlong indices (a
path like `sitemap-0.xml` produces a negative start and an empty slice). -/
def chunkSlice (allVideoSlugs : List SlugEntry) (sitemapNumber maxUrls : Nat) :
    List SlugEntry :=
  let len : Int := allVideoSlugs.length
  let startIndex : Int := ((sitemapNumber : Int) - 1) * maxUrls
  let endIndex : Int := startIndex + maxUrls
  let s : Nat := (if startIndex < 0 then max (len + startIndex) 0 else min startIndex len).toNat
  let e : Nat := (if endIndex < 0 then max (len + endIndex) 0 else min endIndex len).toNat
  (allVideoSlugs.take e).drop s

/-- Embedding of `generateIndividualSitemap` (source lines 1613–1655), as the response
body string; the two 404 responses (no number in the path, empty slice)
are `none`. -/
def generateIndividualSitemap (allVideoSlugs : List SlugEntry)
    (baseUrl today pathname : String) (maxUrls : Nat) : Option String :=
  match sitemapNumberScan pathname.data with
  | none => none
  | some sitemapNumber =>
    let videoSlugs := chunkSlice allVideoSlugs sitemapNumber maxUrls
    if videoSlugs.length = 0 then none
    else some
      ("<?xml version=\"1.0\" encoding=\"UTF-8\"?>\n<urlset xmlns=\"http://www.sitemaps.org/schemas/sitemap/0.9\">" ++
       String.join (videoSlugs.map (sitemapUrlEntry baseUrl today)) ++
       "\n</urlset>")

/-- The keys of an object are pairwise distinct.  Objects built by
`objSet` from `[]` (in particular every parser output) satisfy this; JS
objects cannot hold duplicate keys at all. -/
def objKeysNodup (o : Obj) : Prop := (o.map Prod.fst).Nodup

/-- A dynamic value that is a string, or falsy: exactly the values on
which the JS duration formatters and `generateSlug` do not throw. -/
def isStrOrFalsy : Value → Bool
  | .vstr _ => true
  | v => !truthy v

/-- The dynamic value of the record's `duration` property after the
spread of the front-matter (source lines 172 and 183): the front-matter
`duration` when that key exists, otherwise the object-literal fallback
`runtime || duration || ''`. -/
def effectiveDuration (fm : Obj) : Value :=
  if objHasKey fm "duration" then objGet fm "duration"
  else jsOr (objGet fm "runtime") (jsOr (objGet fm "duration") (.vstr ""))

/-- Spec-side reading of the hour/minute components of an ISO duration
string `PT…H…M…`, for stating claim C1's component agreement. -/
def isoHourMin (s : String) : Option Nat × Option Nat :=
  match s.data with
  | 'P' :: 'T' :: rest =>
    let ds1 := rest.takeWhile isDigitJS
    match rest.drop ds1.length with
    | 'H' :: rest2 =>
      let ds2 := rest2.takeWhile isDigitJS
      match rest2.drop ds2.length with
      | 'M' :: _ =>
        (some (digitsVal ds1), if ds2 = [] then none else some (digitsVal ds2))
      | _ => (some (digitsVal ds1), none)
    | 'M' :: _ => (none, if ds1 = [] then none else some (digitsVal ds1))
    | _ => (none, none)
  | _ => (none, none)

/-- Spec-side reading of the hour/minute components of a human duration
string (`1h 30m`, `45m`, `2h`), for stating claim C1's component
agreement. -/
def humanHourMin (s : String) : Option Nat × Option Nat :=
  let cs := s.data
  let ds1 := cs.takeWhile isDigitJS
  match cs.drop ds1.length with
  | 'h' :: rest =>
    let rest2 := rest.dropWhile (· = ' ')
    let ds2 := rest2.takeWhile isDigitJS
    match rest2.drop ds2.length with
    | 'm' :: _ =>
      (if ds1 = [] then none else some (digitsVal ds1),
       if ds2 = [] then none else some (digitsVal ds2))
    | _ => (if ds1 = [] then none else some (digitsVal ds1), none)
  | 'm' :: _ => (none, if ds1 = [] then none else some (digitsVal ds1))
  | _ => (none, none)

/-- The record produced for filename `[A][MOVIE][B].md` with front-matter
`runtime: 2 hours` and `duration: 90 minutes` (used to witness claim C10
at a concrete input). -/
def c10record : Obj :=
  [("filename", .vstr "[A][MOVIE][B].md"),
   ("title", .vstr "A"),
   ("slug", .vstr "a"),
   ("contentType", .vstr "MOVIE"),
   ("translator", .vstr "B"),
   ("translatorSlug", .vstr "b"),
   ("downloadUrl", .vstr "d"),
   ("htmlUrl", .vstr "h"),
   ("duration", .vstr "90 minutes"),
   ("quality", .vstr "HD"),
   ("uploadDate", .vstr "Z"),
   ("poster", .vstr ""),
   ("videoUrl", .vstr ""),
   ("description", .vstr ""),
   ("releaseYear", .vstr ""),
   ("genre", .vlist []),
   ("views", .vnum 0),
   ("likes", .vnum 0),
   ("runtime", .vstr "2 hours"),
   ("isoDuration", .vstr "PT90M"),
   ("formattedDate", .vstr "FD"),
   ("shortDate", .vstr "SD"),
   ("formattedDuration", .vstr "90m")]

/-- The record produced for filename `[My-Movie][MOVIE][JCB].md` with
front-matter `title: Hi` (used to witness claim C3 at a concrete
input). -/
def c3record : Obj :=
  [("filename", .vstr "[My-Movie][MOVIE][JCB].md"),
   ("title", .vstr "Hi"),
   ("slug", .vstr "my-movie"),
   ("contentType", .vstr "MOVIE"),
   ("translator", .vstr "JCB"),
   ("translatorSlug", .vstr "jcb"),
   ("downloadUrl", .vstr "d"),
   ("htmlUrl", .vstr "h"),
   ("duration", .vstr ""),
   ("quality", .vstr "HD"),
   ("uploadDate", .vstr "Z"),
   ("poster", .vstr ""),
   ("videoUrl", .vstr ""),
   ("description", .vstr ""),
   ("releaseYear", .vstr ""),
   ("genre", .vlist []),
   ("views", .vnum 0),
   ("likes", .vnum 0),
   ("formattedDate", .vstr "FD"),
   ("shortDate", .vstr "SD")]

/-! ## Helper lemmas: the slug pipeline -/

theorem toNat_ofNat_valid (n : Nat) (h : n.isValidChar) : (Char.ofNat n).toNat = n := by
  simp only [Char.ofNat, h, dite_true, Char.ofNatAux, Char.toNat, UInt32.toNat]
  simp

theorem char_le_iff (a b : Char) : (a ≤ b) ↔ (a.toNat ≤ b.toNat) := by
  rw [Char.le_def, UInt32.le_def, BitVec.le_def]
  rfl

theorem jsToLowerChar_not_upper (c : Char) :
    (('A' ≤ jsToLowerChar c) && (jsToLowerChar c ≤ 'Z')) = false := by
  unfold jsToLowerChar
  by_cases h : ('A' ≤ c) && (c ≤ 'Z')
  · simp only [h, if_true]
    have hc1 : 65 ≤ c.toNat := by
      have h1 := (Bool.and_eq_true _ _).mp h |>.1
      rw [decide_eq_true_eq, char_le_iff] at h1
      exact h1
    have hc2 : c.toNat ≤ 90 := by
      have h2 := (Bool.and_eq_true _ _).mp h |>.2
      rw [decide_eq_true_eq, char_le_iff] at h2
      exact h2
    have hv : (c.toNat + 32).isValidChar := Or.inl (by omega)
    have ht : (Char.ofNat (c.toNat + 32)).toNat = c.toNat + 32 := toNat_ofNat_valid _ hv
    have hz : ¬ ((Char.ofNat (c.toNat + 32)) ≤ 'Z') := by
      rw [char_le_iff, ht]
      show ¬ (c.toNat + 32 ≤ 90)
      omega
    simp [hz]
  · rw [if_neg h]
    exact Bool.eq_false_iff.mpr h

theorem head?_dropWhile_not (p : Char → Bool) :
    ∀ (l : List Char) (c : Char), (l.dropWhile p).head? = some c → p c = false := by
  intro l
  induction l with
  | nil => intro c h; simp [List.dropWhile] at h
  | cons a rest ih =>
    intro c h
    by_cases hp : p a
    · rw [List.dropWhile_cons_of_pos hp] at h; exact ih c h
    · rw [List.dropWhile_cons_of_neg hp] at h
      simp at h; subst h; simpa using hp

theorem getLast?_dropWhile_not (p : Char → Bool) (l : List Char) (c : Char)
    (h : (l.dropWhile p).getLast? = some c) : l.getLast? = some c := by
  have hs : l.dropWhile p <:+ l := List.dropWhile_suffix p
  obtain ⟨pre, hpre⟩ := hs
  have hne : l.dropWhile p ≠ [] := by
    intro hnil; rw [hnil] at h; simp at h
  rw [← hpre, List.getLast?_append, h]
  rfl

theorem mem_stripEdgeHyphens {c : Char} {l : List Char} (h : c ∈ stripEdgeHyphens l) :
    c ∈ l := by
  unfold stripEdgeHyphens at h
  rw [List.mem_reverse] at h
  have h2 := List.dropWhile_subset (l := (l.dropWhile (· = '-')).reverse) (· = '-') h
  rw [List.mem_reverse] at h2
  exact List.dropWhile_subset _ h2

theorem head?_stripEdgeHyphens {c : Char} {l : List Char}
    (h : (stripEdgeHyphens l).head? = some c) : c ≠ '-' := by
  unfold stripEdgeHyphens at h
  rw [List.head?_reverse] at h
  have h2 := getLast?_dropWhile_not _ _ _ h
  rw [List.getLast?_reverse] at h2
  have := head?_dropWhile_not (· = '-') l c h2
  simpa using this

theorem getLast?_stripEdgeHyphens {c : Char} {l : List Char}
    (h : (stripEdgeHyphens l).getLast? = some c) : c ≠ '-' := by
  unfold stripEdgeHyphens at h
  rw [List.getLast?_reverse] at h
  have := head?_dropWhile_not (· = '-') _ c h
  simpa using this

theorem mem_collapseRunsAux {c : Char} :
    ∀ (inRun : Bool) (l : List Char), c ∈ collapseRunsAux inRun l →
      c = '-' ∨ (c ∈ l ∧ slugCollapse c = false) := by
  intro inRun l
  induction l generalizing inRun with
  | nil => intro h; simp [collapseRunsAux] at h
  | cons a rest ih =>
    intro h
    rw [collapseRunsAux] at h
    by_cases ha : slugCollapse a
    · rw [if_pos ha] at h
      rcases inRun with _ | _
      · simp only [Bool.false_eq_true, if_false] at h
        rcases List.mem_cons.mp h with h1 | h2
        · exact Or.inl h1
        · rcases ih true h2 with h3 | ⟨h4, h5⟩
          · exact Or.inl h3
          · exact Or.inr ⟨List.mem_cons_of_mem a h4, h5⟩
      · simp only [if_true] at h
        rcases ih true h with h3 | ⟨h4, h5⟩
        · exact Or.inl h3
        · exact Or.inr ⟨List.mem_cons_of_mem a h4, h5⟩
    · rw [if_neg ha] at h
      rcases List.mem_cons.mp h with h1 | h2
      · subst h1; exact Or.inr ⟨List.mem_cons_self _ _, by simpa using ha⟩
      · rcases ih false h2 with h3 | ⟨h4, h5⟩
        · exact Or.inl h3
        · exact Or.inr ⟨List.mem_cons_of_mem a h4, h5⟩

theorem mem_collapseRuns {c : Char} {l : List Char} (h : c ∈ collapseRuns l) :
    c = '-' ∨ (c ∈ l ∧ slugCollapse c = false) :=
  mem_collapseRunsAux false l h

theorem mem_jsTrimList {c : Char} {l : List Char} (h : c ∈ jsTrimList l) : c ∈ l := by
  unfold jsTrimList at h
  rw [List.mem_reverse] at h
  have h2 := List.dropWhile_subset (l := (l.dropWhile jsIsSpace).reverse) jsIsSpace h
  rw [List.mem_reverse] at h2
  exact List.dropWhile_subset _ h2

theorem generateSlug_isGoodSlug (s : String) : isGoodSlug (generateSlug s) := by
  refine ⟨?_, ?_, ?_⟩
  · intro c hc
    show slugCharOk c = true
    have hc' : c ∈ stripEdgeHyphens
        (collapseRuns ((jsTrimList (s.data.map jsToLowerChar)).filter slugKeep)) := hc
    have h1 := mem_stripEdgeHyphens hc'
    rcases mem_collapseRuns h1 with h2 | ⟨h3, h4⟩
    · simp [slugCharOk, h2]
    · have hkeep : slugKeep c = true := (List.mem_filter.mp h3).2
      have hmem2 : c ∈ jsTrimList (s.data.map jsToLowerChar) := (List.mem_filter.mp h3).1
      have hmem3 : c ∈ s.data.map jsToLowerChar := mem_jsTrimList hmem2
      obtain ⟨c0, _, hc0⟩ := List.mem_map.mp hmem3
      have hup : (('A' ≤ c) && (c ≤ 'Z')) = false := hc0 ▸ jsToLowerChar_not_upper c0
      simp only [slugKeep, isWordCharJS, Bool.or_eq_true] at hkeep
      simp only [slugCollapse, Bool.or_eq_false_iff] at h4
      obtain ⟨⟨hsp, hund⟩, hhyp⟩ := h4
      simp only [slugCharOk, Bool.or_eq_true]
      rcases hkeep with ((((hlo | hupc) | hdig) | hu) | hspc) | hhy
      · exact Or.inl (Or.inl hlo)
      · rw [hupc] at hup; simp at hup
      · exact Or.inl (Or.inr hdig)
      · rw [decide_eq_true_eq] at hu; subst hu; simp at hund
      · rw [hspc] at hsp; simp at hsp
      · rw [decide_eq_true_eq] at hhy; subst hhy; simp at hhyp
  · intro c hc
    exact head?_stripEdgeHyphens hc
  · intro c hc
    exact getLast?_stripEdgeHyphens hc

/-! ## Helper lemmas: JS object semantics -/

theorem objHasKey_iff_mem_keys {o : Obj} {k : String} :
    objHasKey o k = true ↔ k ∈ o.map Prod.fst := by
  simp only [objHasKey, List.any_eq_true, List.mem_map]
  constructor
  · rintro ⟨p, hp, hpk⟩
    exact ⟨p, hp, by simpa using hpk⟩
  · rintro ⟨p, hp, hpk⟩
    exact ⟨p, hp, by simp [hpk]⟩

theorem find?_eq_none_of_not_hasKey {o : Obj} {k : String}
    (h : objHasKey o k = false) : o.find? (fun p => p.1 == k) = none := by
  rw [List.find?_eq_none]
  intro p hp
  intro hpk
  rw [← Bool.not_eq_true, objHasKey_iff_mem_keys] at h
  exact h (List.mem_map.mpr ⟨p, hp, by simpa using hpk⟩)

theorem find?_map_setSelf (rest : Obj) (k : String) (v : Value) :
    (rest.map (fun p => if p.1 == k then (k, v) else p)).find? (fun p => p.1 == k) =
      if objHasKey rest k then some (k, v) else none := by
  induction rest with
  | nil => simp [objHasKey]
  | cons q t ih =>
    cases hq : (q.1 == k) with
    | true => simp [List.find?, hq, objHasKey, List.any_cons]
    | false =>
      simp only [List.map_cons, hq, Bool.false_eq_true, if_false, List.find?, hq]
      rw [ih]
      have hk2 : objHasKey (q :: t) k = objHasKey t k := by
        simp [objHasKey, List.any_cons, hq]
      rw [hk2]

theorem find?_map_setEq (rest : Obj) (k : String) (v : Value) (k' : String)
    (h : (k == k') = false) :
    (rest.map (fun p => if p.1 == k then (k, v) else p)).find? (fun p => p.1 == k') =
      rest.find? (fun p => p.1 == k') := by
  induction rest with
  | nil => simp
  | cons q t ih =>
    cases hq : (q.1 == k) with
    | true =>
      have hqk : q.1 = k := by simpa using hq
      have h2 : (q.1 == k') = false := by rw [hqk]; exact h
      simp only [List.map_cons, hq, if_true, List.find?, h2, h]
      exact ih
    | false =>
      simp only [List.map_cons, hq, Bool.false_eq_true, if_false, List.find?]
      cases hq' : (q.1 == k') with
      | true => rfl
      | false => exact ih

theorem objGet_objSet_self (o : Obj) (k : String) (v : Value) :
    objGet (objSet o k v) k = v := by
  unfold objSet
  cases h : objHasKey o k with
  | true =>
    simp only [if_true, objGet]
    rw [find?_map_setSelf, h]
    simp
  | false =>
    simp only [Bool.false_eq_true, if_false, objGet]
    rw [List.find?_append, find?_eq_none_of_not_hasKey h]
    simp

theorem objGet_objSet_ne (o : Obj) (k : String) (v : Value) (k' : String)
    (h : k' ≠ k) : objGet (objSet o k v) k' = objGet o k' := by
  have hke : (k == k') = false := by
    rw [beq_eq_false_iff_ne]
    exact fun he => h he.symm
  unfold objSet
  cases hk : objHasKey o k with
  | true =>
    simp only [if_true, objGet, find?_map_setEq _ _ _ _ hke]
  | false =>
    simp only [Bool.false_eq_true, if_false, objGet]
    rw [List.find?_append]
    cases hf : o.find? (fun p => p.1 == k') with
    | some p => simp
    | none =>
      simp only [Option.none_or]
      simp [List.find?, hke]

theorem keys_objSet (o : Obj) (k : String) (v : Value) :
    (objSet o k v).map Prod.fst =
      if objHasKey o k then o.map Prod.fst else o.map Prod.fst ++ [k] := by
  unfold objSet
  by_cases h : objHasKey o k = true
  · simp only [h, if_true, List.map_map]
    congr 1
    funext p
    by_cases hp : (p.1 == k) = true
    · simp [Function.comp, hp]
      exact (by simpa using hp : p.1 = k).symm
    · simp [Function.comp, hp]
  · rw [Bool.not_eq_true] at h
    simp [h]

theorem objKeysNodup_objSet {o : Obj} (k : String) (v : Value)
    (h : objKeysNodup o) : objKeysNodup (objSet o k v) := by
  unfold objKeysNodup
  rw [keys_objSet]
  by_cases hk : objHasKey o k = true
  · simpa [hk] using h
  · rw [Bool.not_eq_true] at hk
    simp only [hk, Bool.false_eq_true, if_false]
    rw [List.nodup_append]
    refine ⟨h, List.nodup_singleton k, ?_⟩
    intro a ha hb
    simp at hb
    subst hb
    rw [← objHasKey_iff_mem_keys] at ha
    rw [ha] at hk
    cases hk

theorem objGet_objSpread (o src : Obj) (h : objKeysNodup src) (k : String) :
    objGet (objSpread o src) k =
      if objHasKey src k then objGet src k else objGet o k := by
  induction src generalizing o with
  | nil => simp [objSpread, objHasKey, objGet]
  | cons p rest ih =>
    have hnd : objKeysNodup rest := (List.nodup_cons.mp h).2
    have hnotin : p.1 ∉ rest.map Prod.fst := (List.nodup_cons.mp h).1
    show objGet (objSpread (objSet o p.1 p.2) rest) k = _
    rw [ih _ hnd]
    cases hk : objHasKey rest k with
    | true =>
      have hne : p.1 ≠ k := fun he => hnotin (he ▸ objHasKey_iff_mem_keys.mp hk)
      have hbe : (p.1 == k) = false := by rwa [beq_eq_false_iff_ne]
      have hh : objHasKey (p :: rest) k = true := by
        simp [objHasKey, List.any_cons] at hk ⊢
        exact Or.inr hk
      simp only [hk, hh, eq_self_iff_true, if_true]
      unfold objGet
      rw [List.find?]
      simp only [hbe]
    | false =>
      by_cases hpk : p.1 = k
      · subst hpk
        have hh : objHasKey (p :: rest) p.1 = true := by
          simp [objHasKey, List.any_cons]
        simp only [hk, Bool.false_eq_true, if_false, hh, eq_self_iff_true, if_true]
        rw [objGet_objSet_self]
        unfold objGet
        rw [List.find?]
        simp
      · have hbe : (p.1 == k) = false := by rwa [beq_eq_false_iff_ne]
        have hh : objHasKey (p :: rest) k = false := by
          simp only [objHasKey, List.any_cons, hbe, Bool.false_or]
          exact hk
        simp only [hk, Bool.false_eq_true, if_false, hh]
        exact objGet_objSet_ne o p.1 p.2 k (fun he => hpk he.symm)

theorem objGet_eq_vnone_of_not_hasKey {o : Obj} {k : String}
    (h : objHasKey o k = false) : objGet o k = .vnone := by
  unfold objGet
  rw [find?_eq_none_of_not_hasKey h]
  rfl

theorem processLine_shape (lines : List String) (data : Obj) (line : String) :
    processLine lines data line = data ∨
      ∃ k v, processLine lines data line = objSet data k v := by
  unfold processLine
  by_cases h1 : jsTrim line = ""
  · rw [if_pos h1]; exact Or.inl rfl
  · rw [if_neg h1]
    cases hm : matchKeyValue line with
    | none => exact Or.inl rfl
    | some kv =>
      refine Or.inr ?_
      obtain ⟨key, rawVal⟩ := kv
      dsimp only
      split
      · exact ⟨_, _, rfl⟩
      · split
        · exact ⟨_, _, rfl⟩
        · split
          · exact ⟨_, _, rfl⟩
          · split
            · exact ⟨_, _, rfl⟩
            · split
              · exact ⟨_, _, rfl⟩
              · exact ⟨_, _, rfl⟩

theorem objKeysNodup_parseLines (lines : List String) :
    ∀ (toGo : List String) (data : Obj), objKeysNodup data →
      objKeysNodup (parseLines lines toGo data) := by
  intro toGo
  induction toGo with
  | nil => intro data h; exact h
  | cons l rest ih =>
    intro data h
    rw [parseLines]
    apply ih
    rcases processLine_shape lines data l with hs | ⟨k, v, hs⟩
    · rwa [hs]
    · rw [hs]; exact objKeysNodup_objSet k v h

theorem objKeysNodup_parseYAMLFrontmatter (content : String) :
    objKeysNodup (parseYAMLFrontmatter content) := by
  unfold parseYAMLFrontmatter
  cases extractFrontmatter content with
  | none => exact List.nodup_nil
  | some fm => exact objKeysNodup_parseLines _ _ _ List.nodup_nil

/-! ## Helper lemmas: the record construction stages -/

theorem ensureISODuration_get_ne (vd vd' : Obj) (key : String)
    (hk : key ≠ "isoDuration") (h : ensureISODuration vd = .ok vd') :
    objGet vd' key = objGet vd key := by
  unfold ensureISODuration at h
  split at h
  · cases hcv : convertDurationToISOV (objGet vd "duration") with
    | ok iso =>
      rw [hcv] at h
      injection h with h2
      rw [← h2]
      exact objGet_objSet_ne vd _ _ key hk
    | error e => rw [hcv] at h; exact Except.noConfusion h
  · injection h with h2
    rw [← h2]

theorem addFormattedDate_get_ne (fmtDate fmtShort : Value → String) (vd : Obj)
    (key : String) (h1 : key ≠ "formattedDate") (h2 : key ≠ "shortDate") :
    objGet (addFormattedDate fmtDate fmtShort vd) key = objGet vd key := by
  unfold addFormattedDate
  split
  · rw [objGet_objSet_ne _ _ _ _ h2, objGet_objSet_ne _ _ _ _ h1]
  · rfl

theorem addFormattedDuration_get_ne (vd vd' : Obj) (key : String)
    (hk : key ≠ "formattedDuration") (h : addFormattedDuration vd = .ok vd') :
    objGet vd' key = objGet vd key := by
  unfold addFormattedDuration at h
  split at h
  · cases hcv : formatDurationForDisplayV (objGet vd "duration") with
    | ok disp =>
      rw [hcv] at h
      injection h with h2
      rw [← h2]
      exact objGet_objSet_ne vd _ _ key hk
    | error e => rw [hcv] at h; exact Except.noConfusion h
  · injection h with h2
    rw [← h2]

theorem convertDurationToISOV_ok_of_strOrFalsy (v : Value)
    (h : isStrOrFalsy v = true) : ∃ r, convertDurationToISOV v = .ok r := by
  unfold convertDurationToISOV
  cases v with
  | vstr s => split <;> exact ⟨_, rfl⟩
  | vnum n =>
    have ht : truthy (.vnum n) = false := by simpa [isStrOrFalsy] using h
    rw [ht]
    exact ⟨_, rfl⟩
  | vbool b =>
    have ht : truthy (.vbool b) = false := by simpa [isStrOrFalsy] using h
    rw [ht]
    exact ⟨_, rfl⟩
  | vlist l => simp [isStrOrFalsy, truthy] at h
  | vnone => exact ⟨_, rfl⟩

theorem formatDurationForDisplayV_ok_of_strOrFalsy (v : Value)
    (h : isStrOrFalsy v = true) : ∃ r, formatDurationForDisplayV v = .ok r := by
  unfold formatDurationForDisplayV
  cases v with
  | vstr s => split <;> exact ⟨_, rfl⟩
  | vnum n =>
    have ht : truthy (.vnum n) = false := by simpa [isStrOrFalsy] using h
    rw [ht]
    exact ⟨_, rfl⟩
  | vbool b =>
    have ht : truthy (.vbool b) = false := by simpa [isStrOrFalsy] using h
    rw [ht]
    exact ⟨_, rfl⟩
  | vlist l => simp [isStrOrFalsy, truthy] at h
  | vnone => exact ⟨_, rfl⟩

theorem ensureISODuration_ok (vd : Obj)
    (h : isStrOrFalsy (objGet vd "duration") = true) :
    ∃ vd', ensureISODuration vd = .ok vd' := by
  unfold ensureISODuration
  split
  · obtain ⟨r, hr⟩ := convertDurationToISOV_ok_of_strOrFalsy _ h
    rw [hr]
    exact ⟨_, rfl⟩
  · exact ⟨_, rfl⟩

theorem addFormattedDuration_ok (vd : Obj)
    (h : isStrOrFalsy (objGet vd "duration") = true) :
    ∃ vd', addFormattedDuration vd = .ok vd' := by
  unfold addFormattedDuration
  split
  · obtain ⟨r, hr⟩ := formatDurationForDisplayV_ok_of_strOrFalsy _ h
    rw [hr]
    exact ⟨_, rfl⟩
  · exact ⟨_, rfl⟩

theorem generateSlugV_ok (v : Value) (tr : String)
    (h : isStrOrFalsy v = true) :
    ∃ s, generateSlugV (jsOr v (.vstr tr)) = .ok s := by
  cases v with
  | vstr s => unfold jsOr; split <;> exact ⟨_, rfl⟩
  | vnum n =>
    have ht : truthy (.vnum n) = false := by simpa [isStrOrFalsy] using h
    unfold jsOr
    rw [ht]
    exact ⟨_, rfl⟩
  | vbool b =>
    have ht : truthy (.vbool b) = false := by simpa [isStrOrFalsy] using h
    unfold jsOr
    rw [ht]
    exact ⟨_, rfl⟩
  | vlist l => simp [isStrOrFalsy, truthy] at h
  | vnone => exact ⟨_, rfl⟩

theorem generateSlugV_ok_inv (v : Value) (s : String)
    (h : generateSlugV v = .ok s) : ∃ src, s = generateSlug src := by
  cases v with
  | vstr src => exact ⟨src, by injection h with h2; rw [h2]⟩
  | vnum n => exact Except.noConfusion h
  | vbool b => exact Except.noConfusion h
  | vlist l => exact Except.noConfusion h
  | vnone => exact Except.noConfusion h

theorem buildVideoData_ok_elim
    (name t ct tr dl hl now : String) (fd fs : Value → String) (fm o : Obj)
    (hok : buildVideoData name t ct tr dl hl now fd fs fm = .ok o) :
    ∃ (ts : String) (vd1 : Obj),
      generateSlugV (jsOr (objGet fm "translator") (.vstr tr)) = .ok ts ∧
      ensureISODuration
        (objSpread (videoDataLiteral name t ct tr dl hl now ts fm) fm) = .ok vd1 ∧
      addFormattedDuration (addFormattedDate fd fs vd1) = .ok o := by
  unfold buildVideoData at hok
  cases hslug : generateSlugV (jsOr (objGet fm "translator") (.vstr tr)) with
  | error e => rw [hslug] at hok; exact Except.noConfusion hok
  | ok ts =>
    rw [hslug] at hok
    simp only [] at hok
    cases he : ensureISODuration
        (objSpread (videoDataLiteral name t ct tr dl hl now ts fm) fm) with
    | error e => rw [he] at hok; exact Except.noConfusion hok
    | ok vd1 =>
      rw [he] at hok
      simp only [] at hok
      cases hf : addFormattedDuration (addFormattedDate fd fs vd1) with
      | error e => rw [hf] at hok; exact Except.noConfusion hok
      | ok vd3 =>
        rw [hf] at hok
        simp only [] at hok
        injection hok with h2
        exact ⟨ts, vd1, rfl, he, h2 ▸ hf⟩

theorem buildVideoData_get_stable
    (name t ct tr dl hl now : String) (fd fs : Value → String) (fm o : Obj)
    (hok : buildVideoData name t ct tr dl hl now fd fs fm = .ok o) (key : String)
    (h1 : key ≠ "isoDuration") (h2 : key ≠ "formattedDate")
    (h3 : key ≠ "shortDate") (h4 : key ≠ "formattedDuration") :
    ∃ ts, generateSlugV (jsOr (objGet fm "translator") (.vstr tr)) = .ok ts ∧
      objGet o key =
        objGet (objSpread (videoDataLiteral name t ct tr dl hl now ts fm) fm) key := by
  obtain ⟨ts, vd1, hslug, he, hf⟩ := buildVideoData_ok_elim _ _ _ _ _ _ _ _ _ _ _ hok
  refine ⟨ts, hslug, ?_⟩
  rw [addFormattedDuration_get_ne _ _ _ h4 hf,
    addFormattedDate_get_ne _ _ _ _ h2 h3,
    ensureISODuration_get_ne _ _ _ h1 he]

theorem videoDataLiteral_slug (name t ct tr dl hl now ts : String) (fm : Obj) :
    objGet (videoDataLiteral name t ct tr dl hl now ts fm) "slug" =
      jsOr (objGet fm "slug") (.vstr (generateSlug t)) := by
  simp [videoDataLiteral, objGet, List.find?]

theorem videoDataLiteral_translatorSlug (name t ct tr dl hl now ts : String) (fm : Obj) :
    objGet (videoDataLiteral name t ct tr dl hl now ts fm) "translatorSlug" =
      .vstr ts := by
  simp [videoDataLiteral, objGet, List.find?]

theorem videoDataLiteral_duration (name t ct tr dl hl now ts : String) (fm : Obj) :
    objGet (videoDataLiteral name t ct tr dl hl now ts fm) "duration" =
      jsOr (objGet fm "runtime") (jsOr (objGet fm "duration") (.vstr "")) := by
  simp [videoDataLiteral, objGet, List.find?]

/-- C10: for every file whose front-matter defines both a `runtime` and a
`duration` field, the resulting record's `duration` equals the
front-matter `duration` value (not `runtime`): the trailing spread of all
front-matter fields overrides the earlier runtime-preferred assignment. -/
theorem frontmatter_duration_overrides_runtime
    (name t ct tr downloadUrl htmlUrl nowISO content : String)
    (fmtDate fmtShort : Value → String) (o : Obj)
    (_hrt : objHasKey (parseYAMLFrontmatter content) "runtime" = true)
    (hdur : objHasKey (parseYAMLFrontmatter content) "duration" = true)
    (hok : buildVideoData name t ct tr downloadUrl htmlUrl nowISO fmtDate fmtShort
        (parseYAMLFrontmatter content) = .ok o) :
    objGet o "duration" = objGet (parseYAMLFrontmatter content) "duration" := by
  obtain ⟨ts, hslug, hstable⟩ := buildVideoData_get_stable _ _ _ _ _ _ _ _ _ _ _ hok
    "duration" (by decide) (by decide) (by decide) (by decide)
  rw [hstable, objGet_objSpread _ _ (objKeysNodup_parseYAMLFrontmatter content)]
  simp [hdur]

/-- C3 (amended): `generateSlug` output always satisfies the slug
character-set invariant, and when the front-matter supplies neither a
`slug` nor a `translatorSlug` field, the record's `slug` is exactly
`generateSlug` of the filename title capture and both slug fields can
only hold `generateSlug` images, hence satisfy the invariant. -/
theorem record_slug_charset
    (s name t ct tr downloadUrl htmlUrl nowISO content : String) (_hs : s ≠ "")
    (fmtDate fmtShort : Value → String) (o : Obj)
    (h1 : objHasKey (parseYAMLFrontmatter content) "slug" = false)
    (h2 : objHasKey (parseYAMLFrontmatter content) "translatorSlug" = false)
    (hok : buildVideoData name t ct tr downloadUrl htmlUrl nowISO fmtDate fmtShort
        (parseYAMLFrontmatter content) = .ok o) :
    isGoodSlug (generateSlug s) ∧
    objGet o "slug" = .vstr (generateSlug t) ∧
    (∀ x, objGet o "slug" = .vstr x → isGoodSlug x) ∧
    (∀ x, objGet o "translatorSlug" = .vstr x → isGoodSlug x) := by
  have hnd := objKeysNodup_parseYAMLFrontmatter content
  obtain ⟨ts, hslug, hstable⟩ := buildVideoData_get_stable _ _ _ _ _ _ _ _ _ _ _ hok
    "slug" (by decide) (by decide) (by decide) (by decide)
  have hget : objGet o "slug" = .vstr (generateSlug t) := by
    rw [hstable, objGet_objSpread _ _ hnd, h1]
    simp only [Bool.false_eq_true, if_false]
    rw [videoDataLiteral_slug, objGet_eq_vnone_of_not_hasKey h1]
    rfl
  obtain ⟨ts2, hslug2, hstable2⟩ := buildVideoData_get_stable _ _ _ _ _ _ _ _ _ _ _ hok
    "translatorSlug" (by decide) (by decide) (by decide) (by decide)
  have hget2 : objGet o "translatorSlug" = .vstr ts2 := by
    rw [hstable2, objGet_objSpread _ _ hnd, h2]
    simp only [Bool.false_eq_true, if_false]
    rw [videoDataLiteral_translatorSlug]
  obtain ⟨src, hsrc⟩ := generateSlugV_ok_inv _ _ hslug2
  refine ⟨generateSlug_isGoodSlug s, hget, ?_, ?_⟩
  · intro x hx
    rw [hget] at hx
    injection hx with hx2
    rw [← hx2]
    exact generateSlug_isGoodSlug t
  · intro x hx
    rw [hget2] at hx
    injection hx with hx2
    rw [← hx2, hsrc]
    exact generateSlug_isGoodSlug src

/-- C4 (amended): a filename that misses the three-bracket pattern never
yields a record; a filename that matches it yields a record whenever the
values the construction feeds to `generateSlug` and the duration
formatters are strings or falsy (with a list-valued `translator` or
`duration`/`runtime` front-matter field, the construction throws and the
file yields `none`; see the counterexample). -/
theorem parseTranslatedVideo_pattern
    (name content downloadUrl htmlUrl nowISO : String)
    (fmtDate fmtShort : Value → String) :
    (matchBracketName name = none →
      parseTranslatedVideo name content downloadUrl htmlUrl nowISO fmtDate fmtShort
        = none) ∧
    (∀ t ct tr, matchBracketName name = some (t, ct, tr) →
      isStrOrFalsy (objGet (parseYAMLFrontmatter content) "translator") = true →
      isStrOrFalsy (effectiveDuration (parseYAMLFrontmatter content)) = true →
      ∃ o, parseTranslatedVideo name content downloadUrl htmlUrl nowISO fmtDate fmtShort
        = some o) := by
  constructor
  · intro h
    unfold parseTranslatedVideo
    rw [h]
  · intro t ct tr hmatch htr hdur
    have hnd := objKeysNodup_parseYAMLFrontmatter content
    obtain ⟨ts, hts⟩ := generateSlugV_ok _ tr htr
    have hvdx : objGet (objSpread (videoDataLiteral name t ct tr downloadUrl htmlUrl
        nowISO ts (parseYAMLFrontmatter content)) (parseYAMLFrontmatter content))
        "duration" = effectiveDuration (parseYAMLFrontmatter content) := by
      rw [objGet_objSpread _ _ hnd]
      unfold effectiveDuration
      cases hk : objHasKey (parseYAMLFrontmatter content) "duration" with
      | true => simp
      | false =>
        simp only [Bool.false_eq_true, if_false]
        rw [videoDataLiteral_duration]
    obtain ⟨vd1, he⟩ := ensureISODuration_ok _ (by rw [hvdx]; exact hdur)
    have hvd1 : objGet vd1 "duration" =
        effectiveDuration (parseYAMLFrontmatter content) := by
      rw [ensureISODuration_get_ne _ _ _ (by decide) he, hvdx]
    have hvd2 : objGet (addFormattedDate fmtDate fmtShort vd1) "duration" =
        effectiveDuration (parseYAMLFrontmatter content) := by
      rw [addFormattedDate_get_ne _ _ _ _ (by decide) (by decide), hvd1]
    obtain ⟨vd3, hf⟩ := addFormattedDuration_ok _ (by rw [hvd2]; exact hdur)
    have hbuild : buildVideoData name t ct tr downloadUrl htmlUrl nowISO fmtDate
        fmtShort (parseYAMLFrontmatter content) = .ok vd3 := by
      unfold buildVideoData
      rw [hts]
      simp only []
      rw [he]
      simp only []
      rw [hf]
    refine ⟨vd3, ?_⟩
    unfold parseTranslatedVideo
    rw [hmatch]
    simp only []
    rw [hbuild]

/-! ## Claim C1 — duration formatter agreement -/

/-- C1 counterexample: the claim's example output is wrong.  The ISO
formatter interpolates the captured digit strings verbatim, so
`"1:30:00"` (seconds capture `"00"`) maps to `"PT1H30M00S"`, not the
claimed `"PT1H30M0S"`. -/
theorem durationISO_example_counterexample :
    convertDurationToISO "1:30:00" = "PT1H30M00S" ∧
    convertDurationToISO "1:30:00" ≠ "PT1H30M0S" := by
  decide

/-- C1 (amended): for the five duration inputs the ISO and human
formatters agree on the hour and minute components; `"1:30:00"` maps to
ISO `"PT1H30M00S"` (raw captures, leading zero kept) and human
`"1h 30m"`. -/
theorem duration_formatters_agree :
    isoHourMin (convertDurationToISO "1:30:00") =
      humanHourMin (formatDurationForDisplay "1:30:00") ∧
    isoHourMin (convertDurationToISO "45:00") =
      humanHourMin (formatDurationForDisplay "45:00") ∧
    isoHourMin (convertDurationToISO "90 minutes") =
      humanHourMin (formatDurationForDisplay "90 minutes") ∧
    isoHourMin (convertDurationToISO "2 hours") =
      humanHourMin (formatDurationForDisplay "2 hours") ∧
    isoHourMin (convertDurationToISO "1h30m") =
      humanHourMin (formatDurationForDisplay "1h30m") ∧
    convertDurationToISO "1:30:00" = "PT1H30M00S" ∧
    formatDurationForDisplay "1:30:00" = "1h 30m" ∧
    isoHourMin (convertDurationToISO "1:30:00") = (some 1, some 30) := by
  decide

/-! ## Claim C5 — unmatched duration inputs -/

/-- C5 counterexample: `"abc"` matches none of the five duration
patterns, yet the human formatter returns it unchanged instead of any
zero-length duration marker (the empty string or `"PT0M"`). -/
theorem duration_unmatched_counterexample :
    hmsMatch "abc" = none ∧ msMatch "abc" = none ∧
    unitScan minuteAlts "abc".data = none ∧
    unitScan hourAlts "abc".data = none ∧
    hmScan "abc".data = none ∧
    formatDurationForDisplay "abc" = "abc" ∧
    ("abc" : String) ≠ "" ∧ ("abc" : String) ≠ "PT0M" := by
  decide

/-- C5 (amended): for input matching none of the five duration patterns,
the ISO formatter yields the zero marker `"PT0M"` but the human formatter
returns the input string unchanged; for empty input the ISO formatter
yields `"PT0M"` and the human formatter the empty string. -/
theorem duration_unmatched_behaviour (d : String)
    (h1 : hmsMatch d = none) (h2 : msMatch d = none)
    (h3 : unitScan minuteAlts d.data = none) (h4 : unitScan hourAlts d.data = none)
    (h5 : hmScan d.data = none) (h6 : d ≠ "") (h7 : d ≠ "Not specified") :
    convertDurationToISO d = "PT0M" ∧ formatDurationForDisplay d = d ∧
    convertDurationToISO "" = "PT0M" ∧ formatDurationForDisplay "" = "" := by
  have hcond : (d = "" || d = "Not specified") = false := by
    simp [h6, h7]
  refine ⟨?_, ?_, by decide, by decide⟩
  · unfold convertDurationToISO
    simp only [hcond, Bool.false_eq_true, if_false, h1, h2, h3, h4, h5]
  · unfold formatDurationForDisplay
    simp only [hcond, Bool.false_eq_true, if_false, h1, h2, h3, h4, h5]

/-- C5 witness: the amended claim discharged at `"abc"`. -/
theorem duration_unmatched_behaviour_witness :
    convertDurationToISO "abc" = "PT0M" ∧ formatDurationForDisplay "abc" = "abc" ∧
    convertDurationToISO "" = "PT0M" ∧ formatDurationForDisplay "" = "" :=
  duration_unmatched_behaviour "abc" (by decide) (by decide) (by decide) (by decide)
    (by decide) (by decide) (by decide)

/-! ## Claim C9 — `indexOf`-based list detection -/

/-- C9: a front-matter block where the line `genre:` occurs twice.  When
the parser reaches the second occurrence, `lines.indexOf(line)` finds the
*first* occurrence, so the list it attaches is the one after position 0
(`Action, Drama`), not the `Comedy` list that follows the second
occurrence. -/
theorem parser_indexOf_list_bug :
    objGet (parseYAMLFrontmatter
        "---\ngenre:\n- Action\n- Drama\nfiller: x\ngenre:\n- Comedy\n---\nbody")
        "genre" = .vlist [.vstr "Action", .vstr "Drama"] ∧
    objGet (parseYAMLFrontmatter
        "---\ngenre:\n- Action\n- Drama\nfiller: x\ngenre:\n- Comedy\n---\nbody")
        "genre" ≠ .vlist [.vstr "Comedy"] := by
  decide

/-! ## Claim C2 — exception behaviour of the front-matter parser -/

/-- C2 counterexample: if an exception fires while the second body line
is being processed, the parser returns the field parsed from the first
line — a non-empty partial mapping, not the empty mapping the claim
demands. -/
theorem parser_exception_nonempty_counterexample :
    parseYAMLFrontmatterExn 1 "---\ntitle: A\nviews: 3\n---" =
      ([("title", Value.vstr "A")], true) ∧
    ([("title", Value.vstr "A")] : Obj) ≠ ([] : Obj) := by
  decide

theorem parseLinesExn_spec (failAt : Nat) (lines : List String) :
    ∀ (toGo : List String) (idx : Nat) (data : Obj),
      parseLinesExn failAt lines toGo idx data =
        if idx ≤ failAt ∧ failAt < idx + toGo.length then
          (parseLines lines (toGo.take (failAt - idx)) data, true)
        else (parseLines lines toGo data, false) := by
  intro toGo
  induction toGo with
  | nil =>
    intro idx data
    have : ¬(idx ≤ failAt ∧ failAt < idx + ([] : List String).length) := by
      simp only [List.length_nil, Nat.add_zero]
      omega
    rw [parseLinesExn, if_neg this, parseLines]
  | cons l rest ih =>
    intro idx data
    rw [parseLinesExn]
    by_cases hidx : idx = failAt
    · subst hidx
      rw [if_pos rfl]
      have hcond : idx ≤ idx ∧ idx < idx + (l :: rest).length := by
        simp only [List.length_cons]
        omega
      rw [if_pos hcond, Nat.sub_self, List.take_zero, parseLines]
    · rw [if_neg hidx, ih]
      by_cases hc : idx + 1 ≤ failAt ∧ failAt < idx + 1 + rest.length
      · rw [if_pos hc]
        have hc2 : idx ≤ failAt ∧ failAt < idx + (l :: rest).length := by
          simp only [List.length_cons]
          omega
        rw [if_pos hc2]
        have hsub : failAt - idx = (failAt - (idx + 1)) + 1 := by omega
        rw [hsub, List.take_succ_cons, parseLines]
      · rw [if_neg hc]
        have hc2 : ¬(idx ≤ failAt ∧ failAt < idx + (l :: rest).length) := by
          simp only [List.length_cons]
          omega
        rw [if_neg hc2, parseLines]

/-- C2 (amended): when an exception fires while the front-matter block is
being parsed, the parser returns exactly the fields accumulated from the
body lines processed before the exception (a partial mapping): the `data`
object is declared outside the `try`, and the `catch` swallows the
exception and returns it as-is rather than clearing it. -/
theorem parser_exception_keeps_fields (content : String) (failAt : Nat)
    (hthrew : (parseYAMLFrontmatterExn failAt content).2 = true) :
    ∃ fmText, extractFrontmatter content = some fmText ∧
      (parseYAMLFrontmatterExn failAt content).1 =
        parseLines (splitStr fmText '\n') ((splitStr fmText '\n').take failAt) [] := by
  unfold parseYAMLFrontmatterExn at hthrew ⊢
  cases hex : extractFrontmatter content with
  | none => rw [hex] at hthrew; simp at hthrew
  | some fm =>
    rw [hex] at hthrew
    refine ⟨fm, rfl, ?_⟩
    simp only [] at hthrew ⊢
    rw [parseLinesExn_spec] at hthrew ⊢
    by_cases hcond : 0 ≤ failAt ∧ failAt < 0 + (splitStr fm '\n').length
    · rw [if_pos hcond]
      simp [Nat.sub_zero]
    · rw [if_neg hcond] at hthrew
      simp at hthrew

/-- C2 witness: the amended claim discharged at the counterexample's
content with the exception at line index 1. -/
theorem parser_exception_keeps_fields_witness :
    ∃ fmText, extractFrontmatter "---\ntitle: A\nviews: 3\n---" = some fmText ∧
      (parseYAMLFrontmatterExn 1 "---\ntitle: A\nviews: 3\n---").1 =
        parseLines (splitStr fmText '\n') ((splitStr fmText '\n').take 1) [] :=
  parser_exception_keeps_fields "---\ntitle: A\nviews: 3\n---" 1 (by decide)

/-! ## Claim C8 — relative-date buckets -/

/-- C8: with "now" fixed, a date exactly `n` whole days in the past lands
in the bucket table the claim states (`Today`, `Yesterday`, `{n}d ago`
for 2–6, floor-weeks for 7–29, floor-months of 30 days for 30–364,
floor-years of 365 days from 365 up); in particular 10 days gives
`1w ago`, 40 days `1mo ago`, 400 days `1y ago`. -/
theorem shortDate_buckets :
    (∀ (nowMs : Int) (n : Nat),
      formatShortDate nowMs (nowMs - (n : Int) * 86400000) = claimShortDateBucket n) ∧
    formatShortDate 864000000000 (864000000000 - 10 * 86400000) = "1w ago" ∧
    formatShortDate 864000000000 (864000000000 - 40 * 86400000) = "1mo ago" ∧
    formatShortDate 864000000000 (864000000000 - 400 * 86400000) = "1y ago" := by
  refine ⟨?_, by decide, by decide, by decide⟩
  intro nowMs n
  unfold formatShortDate claimShortDateBucket
  have h1 : nowMs - (nowMs - (n : Int) * 86400000) = (n : Int) * 86400000 := by ring
  rw [h1]
  have h2 : ((n : Int) * 86400000).natAbs = n * 86400000 := by
    rw [show ((n : Int) * 86400000) = ((n * 86400000 : Nat) : Int) by push_cast; ring]
    exact Int.natAbs_ofNat _
  rw [h2]
  have h3 : n * 86400000 / 86400000 = n := Nat.mul_div_cancel n (by norm_num)
  simp only [h3]
  split_ifs <;> first | rfl | omega

/-! ## Claim C6 — grouping by content type -/

/-- C6 counterexample: `grouped` is initialised with only the `MOVIE` and
`TV-SERIES` keys, so a record with any other `contentType` (here
`DOCUMENTARY`) is dropped: it appears in no partition of the result. -/
theorem getLatest_drops_other_types :
    getLatestVideosByType [⟨"DOCUMENTARY", 5, "x"⟩] 8 = ([], []) := by
  simp [getLatestVideosByType, List.filter]

/-- C6 (amended): `getLatestVideosByType` returns the `MOVIE` and
`TV-SERIES` partitions only; each partition holds at most `limit`
elements, is sorted by upload date descending, and contains exactly
records drawn from the input with that `contentType`.  Records with any
other `contentType` are dropped (see the counterexample). -/
theorem getLatestVideosByType_spec (videos : List Video) (limit : Nat) :
    ((getLatestVideosByType videos limit).1.length ≤ limit ∧
     (getLatestVideosByType videos limit).2.length ≤ limit) ∧
    (List.Pairwise (fun a b => b.dateMs ≤ a.dateMs)
        (getLatestVideosByType videos limit).1 ∧
     List.Pairwise (fun a b => b.dateMs ≤ a.dateMs)
        (getLatestVideosByType videos limit).2) ∧
    (∀ v ∈ (getLatestVideosByType videos limit).1,
        v ∈ videos ∧ v.contentType = "MOVIE") ∧
    (∀ v ∈ (getLatestVideosByType videos limit).2,
        v ∈ videos ∧ v.contentType = "TV-SERIES") := by
  have htrans : ∀ (a b c : Video), byDateDesc a b → byDateDesc b c → byDateDesc a c := by
    intro a b c
    simp only [byDateDesc, decide_eq_true_eq]
    omega
  have htotal : ∀ (a b : Video), byDateDesc a b || byDateDesc b a := by
    intro a b
    simp only [byDateDesc, Bool.or_eq_true, decide_eq_true_eq]
    omega
  have hsorted : ∀ (l : List Video),
      List.Pairwise (fun a b => b.dateMs ≤ a.dateMs) ((l.mergeSort byDateDesc).take limit) := by
    intro l
    have hp := List.sorted_mergeSort htrans htotal l
    have hp2 := hp.sublist (List.take_sublist limit _)
    exact hp2.imp (by intro a b h; simpa [byDateDesc] using h)
  have hmem : ∀ (p : Video → Bool) (v : Video),
      v ∈ ((videos.filter p).mergeSort byDateDesc).take limit → v ∈ videos ∧ p v = true := by
    intro p v hv
    have h1 := List.take_subset limit _ hv
    rw [List.mem_mergeSort, List.mem_filter] at h1
    exact h1
  refine ⟨⟨List.length_take_le _ _, List.length_take_le _ _⟩, ⟨hsorted _, hsorted _⟩, ?_, ?_⟩
  · intro v hv
    have := hmem _ v hv
    exact ⟨this.1, by simpa using this.2⟩
  · intro v hv
    have := hmem _ v hv
    exact ⟨this.1, by simpa using this.2⟩

/-! ## Claim C7 — sitemap chunking at 2500 entries -/

theorem chunkSlice_at_2500 (l : List SlugEntry) (h : l.length = 2500) :
    chunkSlice l 1 1000 = l.take 1000 ∧ chunkSlice l 3 1000 = l.drop 2000 := by
  unfold chunkSlice
  rw [h]
  constructor
  · norm_num
    rfl
  · norm_num
    rw [List.take_of_length_le (by rw [h]; decide)]
    rfl

/-- C7: with 2500 entries and the 1000-URL cap, the sitemap index emits
exactly the three numbered chunk references `sitemap-1.xml` …
`sitemap-3.xml` (after the fixed static and categories references), and
each numbered chunk sitemap body consists of exactly its slice of the
entry list: chunk 1 serves entries 0–999 and chunk 3 serves entries
2000–2499 (500 entries). -/
theorem sitemap_chunking (entries : List SlugEntry) (baseUrl today : String)
    (h : entries.length = 2500) :
    numberedSitemapEntries baseUrl today entries.length 1000 =
      [sitemapIndexEntry baseUrl today 1, sitemapIndexEntry baseUrl today 2,
       sitemapIndexEntry baseUrl today 3] ∧
    generateSitemapIndex entries baseUrl today 1000 =
      "<?xml version=\"1.0\" encoding=\"UTF-8\"?>\n<sitemapindex xmlns=\"http://www.sitemaps.org/schemas/sitemap/0.9\">\n    <sitemap>\n        <loc>" ++
      baseUrl ++ "/sitemap-static.xml</loc>\n        <lastmod>" ++ today ++
      "</lastmod>\n    </sitemap>\n    <sitemap>\n        <loc>" ++ baseUrl ++
      "/sitemap-categories.xml</loc>\n        <lastmod>" ++ today ++
      "</lastmod>\n    </sitemap>" ++
      String.join [sitemapIndexEntry baseUrl today 1, sitemapIndexEntry baseUrl today 2,
        sitemapIndexEntry baseUrl today 3] ++
      "\n</sitemapindex>" ∧
    generateIndividualSitemap entries baseUrl today "/sitemap-1.xml" 1000 =
      some ("<?xml version=\"1.0\" encoding=\"UTF-8\"?>\n<urlset xmlns=\"http://www.sitemaps.org/schemas/sitemap/0.9\">" ++
        String.join ((entries.take 1000).map (sitemapUrlEntry baseUrl today)) ++
        "\n</urlset>") ∧
    generateIndividualSitemap entries baseUrl today "/sitemap-3.xml" 1000 =
      some ("<?xml version=\"1.0\" encoding=\"UTF-8\"?>\n<urlset xmlns=\"http://www.sitemaps.org/schemas/sitemap/0.9\">" ++
        String.join ((entries.drop 2000).map (sitemapUrlEntry baseUrl today)) ++
        "\n</urlset>") ∧
    (entries.take 1000).length = 1000 ∧ (entries.drop 2000).length = 500 := by
  have hc := chunkSlice_at_2500 entries h
  have hl1 : (entries.take 1000).length = 1000 := by
    simp [List.length_take, h]
  have hl3 : (entries.drop 2000).length = 500 := by
    simp [List.length_drop, h]
  have hentries : numberedSitemapEntries baseUrl today entries.length 1000 =
      [sitemapIndexEntry baseUrl today 1, sitemapIndexEntry baseUrl today 2,
       sitemapIndexEntry baseUrl today 3] := by
    unfold numberedSitemapEntries
    rw [h]
    rfl
  refine ⟨hentries, ?_, ?_, ?_, hl1, hl3⟩
  · unfold generateSitemapIndex
    rw [hentries]
  · unfold generateIndividualSitemap
    rw [show sitemapNumberScan ("/sitemap-1.xml").data = some 1 from rfl]
    simp only []
    rw [hc.1, hl1]
    norm_num
  · unfold generateIndividualSitemap
    rw [show sitemapNumberScan ("/sitemap-3.xml").data = some 3 from rfl]
    simp only []
    rw [hc.2, hl3]
    norm_num

/-- C7 witness: the chunking claim discharged at a concrete list of 2500
entries. -/
theorem sitemap_chunking_witness :
    numberedSitemapEntries "B" "T" (List.replicate 2500 (SlugEntry.mk "c" "s")).length 1000 =
      [sitemapIndexEntry "B" "T" 1, sitemapIndexEntry "B" "T" 2,
       sitemapIndexEntry "B" "T" 3] ∧
    ((List.replicate 2500 (SlugEntry.mk "c" "s")).take 1000).length = 1000 ∧
    ((List.replicate 2500 (SlugEntry.mk "c" "s")).drop 2000).length = 500 := by
  have h := sitemap_chunking (List.replicate 2500 (SlugEntry.mk "c" "s")) "B" "T"
    (List.length_replicate 2500 _)
  exact ⟨h.1, h.2.2.2.2.1, h.2.2.2.2.2⟩

/-! ## Claims C3, C4, C10 — concrete counterexamples and witnesses -/

/-- C3 counterexample: when the front-matter supplies a `slug` field, the
record's `slug` is taken from it verbatim (`frontmatterData.slug ||
generateSlug(title)`, re-applied by the trailing spread), so a slug like
`Hello World!` with spaces, uppercase and punctuation reaches the record
unchanged, violating the claimed `[a-z0-9-]` invariant. -/
theorem record_slug_charset_counterexample :
    (parseTranslatedVideo "[A][MOVIE][B].md" "---\nslug: Hello World!\n---" "d" "h" "Z"
        (fun _ => "") (fun _ => "")).map (fun o => objGet o "slug") =
      some (.vstr "Hello World!") ∧
    ¬ isGoodSlug "Hello World!" := by
  exact ⟨by decide, by decide⟩

/-- C3 witness: the amended claim discharged at a record built from
front-matter without `slug`/`translatorSlug` fields. -/
theorem record_slug_charset_witness :
    isGoodSlug (generateSlug "Some Title!") ∧
    objGet c3record "slug" = .vstr (generateSlug "My-Movie") ∧
    (∀ x, objGet c3record "slug" = .vstr x → isGoodSlug x) ∧
    (∀ x, objGet c3record "translatorSlug" = .vstr x → isGoodSlug x) :=
  record_slug_charset "Some Title!" "[My-Movie][MOVIE][JCB].md" "My-Movie" "MOVIE" "JCB"
    "d" "h" "Z" "---\ntitle: Hi\n---" (by decide) (fun _ => "FD") (fun _ => "SD")
    c3record (by decide) (by decide) rfl

/-- C4 counterexample: the filename matches the three-bracket pattern and
the content is available, yet no record is produced: the front-matter
makes `translator` a list, `generateSlug` throws on it, and the `catch`
returns `null`. -/
theorem parseTranslatedVideo_throw_counterexample :
    matchBracketName "[A][MOVIE][B].md" = some ("A", "MOVIE", "B") ∧
    parseTranslatedVideo "[A][MOVIE][B].md" "---\ntranslator:\n- John\n---" "d" "h" "Z"
      (fun _ => "") (fun _ => "") = none := by
  decide

/-- C4 witness: the amended claim discharged at a non-matching filename
and at a matching filename with benign front-matter. -/
theorem parseTranslatedVideo_pattern_witness :
    (parseTranslatedVideo "readme.md" "x" "d" "h" "Z" (fun _ => "") (fun _ => "")
      = none) ∧
    (∃ o, parseTranslatedVideo "[My-Movie][MOVIE][JCB].md" "---\ntitle: Hi\n---"
      "d" "h" "Z" (fun _ => "") (fun _ => "") = some o) :=
  ⟨(parseTranslatedVideo_pattern "readme.md" "x" "d" "h" "Z"
      (fun _ => "") (fun _ => "")).1 (by decide),
   (parseTranslatedVideo_pattern "[My-Movie][MOVIE][JCB].md" "---\ntitle: Hi\n---"
      "d" "h" "Z" (fun _ => "") (fun _ => "")).2 "My-Movie" "MOVIE" "JCB"
      (by decide) (by decide) (by decide)⟩

/-- C10 witness: the spread-override claim discharged at concrete
front-matter with `runtime: 2 hours` and `duration: 90 minutes`; the
record's `duration` is `90 minutes`. -/
theorem frontmatter_duration_overrides_runtime_witness :
    objGet c10record "duration" =
      objGet (parseYAMLFrontmatter "---\nruntime: 2 hours\nduration: 90 minutes\n---")
        "duration" :=
  frontmatter_duration_overrides_runtime "[A][MOVIE][B].md" "A" "MOVIE" "B" "d" "h" "Z"
    "---\nruntime: 2 hours\nduration: 90 minutes\n---" (fun _ => "FD") (fun _ => "SD")
    c10record (by decide) (by decide) rfl

end Agasobanuye
